import Mathlib

/-!
Shallow embedding of `src/delivery_manager.py` (BlackRoad Delivery Manager).

The Python program is a SQLite-backed delivery tracker.  We model the
database as an explicit state value (`DB`): the `deliveries` table and the
`tracking_events` table as lists of rows in insertion order, together with
the `AUTOINCREMENT` counters.  SQLite stores the `status` column as raw
TEXT, so `DeliveryRow.status` is a `String`; decoding it back into the
`DeliveryStatus` enum (Python `DeliveryStatus(row["status"])`, which raises
`ValueError` on an unknown value) happens in `row_to_delivery`, exactly as
in `_row_to_delivery`.

Python exceptions are modelled with `Except PyError`; a mutating operation
returns `Except PyError α × DB`, where the returned `DB` is whatever had
been committed when the operation finished or raised (sqlite commits happen
inside each `with self._conn()` block, so an exception raised after a
commit does not undo that commit).

Nondeterministic inputs are passed explicitly: `rand` stands for the
`random.choices` draw in the tracking-number default factory, `now` /
`eventNow` for the successive `datetime.now().isoformat()` calls, and
`eventFault` for a storage failure (e.g. disk full) raised by the
`INSERT INTO tracking_events` statement inside `_log_event`.

`weight_kg` is a Python float on which the program never computes; we
represent it as `Rat`, a faithful stand-in for a value that is only stored
and returned.
-/

deriving instance DecidableEq for Except

/-- Python exceptions that the modelled code paths can raise:
`sqlite3.IntegrityError` (UNIQUE constraint violation on insert),
`ValueError` (raised by `DeliveryStatus(...)` on an undeclared status
string), and `sqlite3.OperationalError` (underlying storage failure). -/
inductive PyError where
  | integrityError
  | valueError
  | operationalError
deriving DecidableEq

/-- The `DeliveryStatus` enum of the source (eight declared statuses). -/
inductive DeliveryStatus where
  | pending
  | picked_up
  | in_transit
  | out_for_delivery
  | delivered
  | failed_attempt
  | returned
  | cancelled
deriving DecidableEq

/-- `DeliveryStatus.value`: the string value of each enum member. -/
def DeliveryStatus.value : DeliveryStatus → String
  | .pending => "pending"
  | .picked_up => "picked_up"
  | .in_transit => "in_transit"
  | .out_for_delivery => "out_for_delivery"
  | .delivered => "delivered"
  | .failed_attempt => "failed_attempt"
  | .returned => "returned"
  | .cancelled => "cancelled"

/-- The enum constructor `DeliveryStatus(s)` of Python: returns the member
whose value is `s`, or fails (`ValueError`) when no member matches. -/
def DeliveryStatus.ofValue? (s : String) : Option DeliveryStatus :=
  if s = "pending" then some .pending
  else if s = "picked_up" then some .picked_up
  else if s = "in_transit" then some .in_transit
  else if s = "out_for_delivery" then some .out_for_delivery
  else if s = "delivered" then some .delivered
  else if s = "failed_attempt" then some .failed_attempt
  else if s = "returned" then some .returned
  else if s = "cancelled" then some .cancelled
  else none

/-- A row of the `deliveries` table.  `status` is the raw TEXT column
(the schema does not constrain it to the declared enum values). -/
structure DeliveryRow where
  id : Nat
  tracking_number : String
  sender : String
  recipient : String
  destination : String
  weight_kg : Rat
  status : String
  estimated_delivery : Option String
  actual_delivery : Option String
  courier : String
  notes : String
  created_at : String
  updated_at : String
deriving DecidableEq

/-- A row of the `tracking_events` table. -/
structure TrackingEventRow where
  id : Nat
  delivery_id : Nat
  status : String
  location : String
  message : String
  timestamp : String
deriving DecidableEq

/-- The decoded `Delivery` dataclass (as handed to callers of the manager):
`status` is the decoded `DeliveryStatus` enum member. -/
structure Delivery where
  id : Nat
  tracking_number : String
  sender : String
  recipient : String
  destination : String
  weight_kg : Rat
  status : DeliveryStatus
  estimated_delivery : Option String
  actual_delivery : Option String
  courier : String
  notes : String
  created_at : String
  updated_at : String
deriving DecidableEq

/-- The alphabet `string.ascii_uppercase + string.digits` from which the
ten random tracking-number characters are drawn. -/
def trackingAlphabet : List Char :=
  ['A', 'B', 'C', 'D', 'E', 'F', 'G', 'H', 'I', 'J', 'K', 'L', 'M',
   'N', 'O', 'P', 'Q', 'R', 'S', 'T', 'U', 'V', 'W', 'X', 'Y', 'Z',
   '0', '1', '2', '3', '4', '5', '6', '7', '8', '9']

theorem trackingAlphabet_length : trackingAlphabet.length = 36 := rfl

/-- The tracking-number default factory of the `Delivery` dataclass:
`"BR" + "".join(random.choices(string.ascii_uppercase + string.digits, k=10))`.
The ten random draws are the injected `rand`. -/
def genTrackingNumber (rand : Fin 10 → Fin 36) : String :=
  "BR" ++ String.mk ((List.finRange 10).map fun i =>
    trackingAlphabet.get (Fin.cast trackingAlphabet_length.symm (rand i)))

/-- The SQLite database file: both tables (rows in insertion order) and the
`AUTOINCREMENT` counters of their integer primary keys. -/
structure DB where
  deliveries : List DeliveryRow
  events : List TrackingEventRow
  next_delivery_id : Nat
  next_event_id : Nat
deriving DecidableEq

/-- A freshly initialised database (`_init_db` creates empty tables;
SQLite AUTOINCREMENT starts handing out ids at 1). -/
def DB.init : DB := ⟨[], [], 1, 1⟩

namespace DeliveryManager

/-- `_row_to_delivery`: decode a raw row into the `Delivery` dataclass.
`DeliveryStatus(row["status"])` raises `ValueError` when the stored text is
not one of the eight declared values. -/
def row_to_delivery (r : DeliveryRow) : Except PyError Delivery :=
  match DeliveryStatus.ofValue? r.status with
  | none => .error .valueError
  | some st =>
      .ok { id := r.id, tracking_number := r.tracking_number,
            sender := r.sender, recipient := r.recipient,
            destination := r.destination, weight_kg := r.weight_kg,
            status := st, estimated_delivery := r.estimated_delivery,
            actual_delivery := r.actual_delivery, courier := r.courier,
            notes := r.notes, created_at := r.created_at,
            updated_at := r.updated_at }

/-- `_log_event`: insert one row into `tracking_events` and commit. -/
def log_event (db : DB) (delivery_id : Nat) (status location message now : String) : DB :=
  { db with
    events := db.events ++
      [{ id := db.next_event_id, delivery_id := delivery_id, status := status,
         location := location, message := message, timestamp := now }],
    next_event_id := db.next_event_id + 1 }

/-- `get`: `SELECT * FROM deliveries WHERE tracking_number=?` (first row),
decoded; `none` when no row matches. -/
def get (db : DB) (tn : String) : Except PyError (Option Delivery) :=
  match db.deliveries.find? (fun r => decide (r.tracking_number = tn)) with
  | none => .ok none
  | some r => (row_to_delivery r).map some

/-- `create`: build the `Delivery` dataclass (status `pending`, generated
tracking number, `actual_delivery = None`, both timestamps `now`), insert it
into `deliveries` and commit — the UNIQUE constraint on `tracking_number`
makes the insert fail with `IntegrityError` on a collision — then append the
creation event via `_log_event` (a second, separate transaction; `eventFault`
injects a storage failure of that second insert, which then propagates after
the first commit already happened).

First, the row `create` inserts: the freshly built `Delivery` dataclass with
status `pending`, no `actual_delivery`, both timestamps `now`, as written to
the `deliveries` table (id from AUTOINCREMENT). -/
def createdRow (db : DB) (sender recipient destination : String) (weight_kg : Rat)
    (courier : String) (estimated_delivery : Option String) (notes : String)
    (tn now : String) : DeliveryRow :=
  { id := db.next_delivery_id, tracking_number := tn, sender := sender,
    recipient := recipient, destination := destination,
    weight_kg := weight_kg, status := "pending",
    estimated_delivery := estimated_delivery, actual_delivery := none,
    courier := courier, notes := notes, created_at := now, updated_at := now }

/-- The committed first transaction of `create`: the INSERT into
`deliveries` plus the AUTOINCREMENT bump. -/
def insertCommit (db : DB) (row : DeliveryRow) : DB :=
  { db with deliveries := db.deliveries ++ [row],
            next_delivery_id := db.next_delivery_id + 1 }

def create (db : DB) (sender recipient destination : String) (weight_kg : Rat)
    (courier : String) (estimated_delivery : Option String) (notes : String)
    (rand : Fin 10 → Fin 36) (now eventNow : String) (eventFault : Bool) :
    Except PyError Delivery × DB :=
  if db.deliveries.any (fun r => decide (r.tracking_number = genTrackingNumber rand)) then
    (.error .integrityError, db)
  else if eventFault then
    (.error .operationalError,
     insertCommit db (createdRow db sender recipient destination weight_kg courier
       estimated_delivery notes (genTrackingNumber rand) now))
  else
    (.ok { id := db.next_delivery_id, tracking_number := genTrackingNumber rand,
           sender := sender, recipient := recipient, destination := destination,
           weight_kg := weight_kg, status := .pending,
           estimated_delivery := estimated_delivery, actual_delivery := none,
           courier := courier, notes := notes, created_at := now,
           updated_at := now },
     log_event
       (insertCommit db (createdRow db sender recipient destination weight_kg courier
         estimated_delivery notes (genTrackingNumber rand) now))
       db.next_delivery_id "pending" "" "Shipment created" eventNow)

/-- The row transformation of the `UPDATE deliveries SET status=?,
actual_delivery=COALESCE(?,actual_delivery), updated_at=? WHERE
tracking_number=?` statement, applied to one row. -/
def updateRow (tn new_status : String) (actual : Option String) (now : String)
    (r : DeliveryRow) : DeliveryRow :=
  if r.tracking_number = tn then
    { r with status := new_status,
             actual_delivery := match actual with
               | some a => some a
               | none => r.actual_delivery,
             updated_at := now }
  else r

/-- The committed UPDATE statement of `update_status`: every row whose
`tracking_number` matches gets the new status, the COALESCE-d
`actual_delivery` (`now` exactly when the new status is `delivered`), and
the refreshed `updated_at`. -/
def updateCommit (db : DB) (tn new_status now : String) : DB :=
  { db with deliveries := db.deliveries.map (updateRow tn new_status
      (if new_status = DeliveryStatus.delivered.value then some now else none) now) }

/-- `update_status`: run the UPDATE statement and commit, then re-read the
row with `get` (which raises `ValueError` if the freshly stored status does
not decode), and only when a row was found append the tracking event
(`eventFault` injects a storage failure of that event insert). -/
def update_status (db : DB) (tn new_status location message : String)
    (now eventNow : String) (eventFault : Bool) :
    Except PyError (Option Delivery) × DB :=
  match get (updateCommit db tn new_status now) tn with
  | .error e => (.error e, updateCommit db tn new_status now)
  | .ok none => (.ok none, updateCommit db tn new_status now)
  | .ok (some d) =>
      if eventFault then (.error .operationalError, updateCommit db tn new_status now)
      else (.ok (some d),
        log_event (updateCommit db tn new_status now) d.id new_status location message eventNow)


/-- SQLite BINARY collation on TEXT: byte-wise (for the ASCII timestamps
stored here, codepoint-wise) lexicographic comparison. -/
def charListLe : List Char → List Char → Bool
  | [], _ => true
  | _ :: _, [] => false
  | a :: as, b :: bs =>
      if a.toNat < b.toNat then true
      else if b.toNat < a.toNat then false
      else charListLe as bs

def textLe (a b : String) : Bool := charListLe a.data b.data

/-- The ordering `ORDER BY updated_at DESC` sorts by. -/
def updatedDescRel (a b : DeliveryRow) : Prop :=
  textLe b.updated_at a.updated_at = true

instance : DecidableRel updatedDescRel := fun a b =>
  inferInstanceAs (Decidable (textLe b.updated_at a.updated_at = true))

/-- The ordering `ORDER BY timestamp` (ascending) sorts by. -/
def timestampAscRel (a b : TrackingEventRow) : Prop :=
  textLe a.timestamp b.timestamp = true

instance : DecidableRel timestampAscRel := fun a b =>
  inferInstanceAs (Decidable (textLe a.timestamp b.timestamp = true))

/-- `ORDER BY updated_at DESC` over a list of delivery rows. -/
def sortByUpdatedDesc (rows : List DeliveryRow) : List DeliveryRow :=
  rows.insertionSort updatedDescRel

/-- `ORDER BY timestamp` (ascending) over a list of event rows. -/
def sortByTimestampAsc (rows : List TrackingEventRow) : List TrackingEventRow :=
  rows.insertionSort timestampAscRel

/-- The list comprehension `[self._row_to_delivery(r) for r in rows]`:
decodes the rows in order, propagating the first `ValueError`. -/
def decodeRows : List DeliveryRow → Except PyError (List Delivery)
  | [] => .ok []
  | r :: rs =>
      match row_to_delivery r with
      | .error e => .error e
      | .ok d =>
          match decodeRows rs with
          | .error e => .error e
          | .ok ds => .ok (d :: ds)

/-- `list_deliveries`: optional `AND status=?` filter (Python tests the
argument for truthiness, so an empty-string filter is ignored like `None`),
`ORDER BY updated_at DESC`, then row decoding. -/
def list_deliveries (db : DB) (status : Option String) :
    Except PyError (List Delivery) :=
  let rows := match status with
    | some s => if s = "" then db.deliveries
                else db.deliveries.filter (fun r => decide (r.status = s))
    | none => db.deliveries
  decodeRows (sortByUpdatedDesc rows)

/-- `history`: look the delivery up with `get` (so an undecodable stored
status propagates as `ValueError`), return `[]` when absent, otherwise all
its events ordered by timestamp. -/
def history (db : DB) (tn : String) : Except PyError (List TrackingEventRow) :=
  match get db tn with
  | .error e => .error e
  | .ok none => .ok []
  | .ok (some d) =>
      .ok (sortByTimestampAsc (db.events.filter (fun e => decide (e.delivery_id = d.id))))

end DeliveryManager

/-- One mutating call on the manager, with its nondeterministic inputs
(random draw, clock readings, injected event-insert storage fault). -/
inductive Op where
  | createOp (sender recipient destination : String) (weight_kg : Rat)
      (courier : String) (estimated_delivery : Option String) (notes : String)
      (rand : Fin 10 → Fin 36) (now eventNow : String) (eventFault : Bool)
  | updateOp (tn new_status location message now eventNow : String)
      (eventFault : Bool)

/-- The database state an operation leaves behind (committed state, whether
the call returned normally or raised). -/
def Op.exec (db : DB) : Op → DB
  | .createOp s r dst w c e n rand now en f =>
      (DeliveryManager.create db s r dst w c e n rand now en f).2
  | .updateOp tn ns loc msg now en f =>
      (DeliveryManager.update_status db tn ns loc msg now en f).2

/-- Run a sequence of mutating calls from a starting state. -/
def execTrace (db : DB) (ops : List Op) : DB := ops.foldl Op.exec db

/-- A store state is reachable when some sequence of manager calls starting
from the fresh database produces it (the read operations do not mutate). -/
def Reachable (db : DB) : Prop := ∃ ops, execTrace DB.init ops = db

/-! ## Basic lemmas about the embedded operations -/

namespace DeliveryManager

theorem updateRow_tracking_number (tn ns : String) (a : Option String) (now : String)
    (r : DeliveryRow) : (updateRow tn ns a now r).tracking_number = r.tracking_number := by
  unfold updateRow; split <;> rfl

theorem updateRow_id (tn ns : String) (a : Option String) (now : String)
    (r : DeliveryRow) : (updateRow tn ns a now r).id = r.id := by
  unfold updateRow; split <;> rfl

theorem updateRow_of_no_match (tn ns : String) (a : Option String) (now : String)
    (r : DeliveryRow) (h : r.tracking_number ≠ tn) : updateRow tn ns a now r = r := by
  unfold updateRow; rw [if_neg h]

theorem row_to_delivery_ok_id (r : DeliveryRow) (d : Delivery)
    (h : row_to_delivery r = .ok d) : d.id = r.id := by
  unfold row_to_delivery at h
  cases hs : DeliveryStatus.ofValue? r.status <;> rw [hs] at h
  · exact absurd h (by simp)
  · cases h; rfl

theorem row_to_delivery_ok_updated_at (r : DeliveryRow) (d : Delivery)
    (h : row_to_delivery r = .ok d) : d.updated_at = r.updated_at := by
  unfold row_to_delivery at h
  cases hs : DeliveryStatus.ofValue? r.status <;> rw [hs] at h
  · exact absurd h (by simp)
  · cases h; rfl

theorem row_to_delivery_ok_actual (r : DeliveryRow) (d : Delivery)
    (h : row_to_delivery r = .ok d) : d.actual_delivery = r.actual_delivery := by
  unfold row_to_delivery at h
  cases hs : DeliveryStatus.ofValue? r.status <;> rw [hs] at h
  · exact absurd h (by simp)
  · cases h; rfl

theorem row_to_delivery_ok_status (r : DeliveryRow) (d : Delivery)
    (h : row_to_delivery r = .ok d) : DeliveryStatus.ofValue? r.status = some d.status := by
  unfold row_to_delivery at h
  cases hs : DeliveryStatus.ofValue? r.status <;> rw [hs] at h
  · exact absurd h (by simp)
  · cases h; rfl

/-- `get` returns the absent result when no stored row carries the
requested tracking number. -/
theorem get_of_no_match (db : DB) (tn : String)
    (h : ∀ r ∈ db.deliveries, r.tracking_number ≠ tn) : get db tn = .ok none := by
  unfold get
  have hfind : db.deliveries.find? (fun r => decide (r.tracking_number = tn)) = none := by
    rw [List.find?_eq_none]
    intro r hr
    simpa using h r hr
  rw [hfind]

/-- The UPDATE statement touches no row when no stored row carries the
requested tracking number. -/
theorem map_updateRow_of_no_match (db : DB) (tn ns : String) (a : Option String)
    (now : String) (h : ∀ r ∈ db.deliveries, r.tracking_number ≠ tn) :
    db.deliveries.map (updateRow tn ns a now) = db.deliveries := by
  conv_rhs => rw [← List.map_id db.deliveries]
  exact List.map_congr_left fun r hr => updateRow_of_no_match tn ns a now r (h r hr)

end DeliveryManager

/-! ## Shared concrete states used by witnesses and counterexamples -/

/-- A fixed draw for the tracking-number generator: always the first
alphabet character, giving the tracking number `BRAAAAAAAAAA`. -/
def sampleRand : Fin 10 → Fin 36 := fun _ => 0

/-- The store after one successful `create("a", "b", "c")` on a fresh
database. -/
def sampleDB : DB :=
  (DeliveryManager.create DB.init "a" "b" "c" 0 "" none "" sampleRand "t0" "t1" false).2

theorem sampleDB_reachable : Reachable sampleDB :=
  ⟨[.createOp "a" "b" "c" 0 "" none "" sampleRand "t0" "t1" false], rfl⟩

/-! ## C1 -/

/-- C1, counterexample: `update_status` on a tracking number that matches no
stored Shipment does not raise any error — on the fresh (empty) store it
returns the absent result `none` and leaves the store unchanged, contrary to
the claim that an explicit `NotFound` error is raised for the mutating
operation. -/
theorem update_status_unknown_returns_none_cx :
    DeliveryManager.update_status DB.init "BRAAAAAAAAAA" "delivered" "" "" "t0" "t1" false
      = (.ok none, DB.init) := by decide

/-- C1, amended: for every tracking number that identifies no stored
Shipment, `update_status` returns the absent result `none` — exactly the
same convention as the read operations `get` (absent) and `history` (empty
list); no error is raised. -/
theorem update_status_unknown_absent_like_reads (db : DB)
    (tn ns loc msg now en : String) (f : Bool)
    (h : ∀ r ∈ db.deliveries, r.tracking_number ≠ tn) :
    (DeliveryManager.update_status db tn ns loc msg now en f).1 = .ok none ∧
    DeliveryManager.get db tn = .ok none ∧
    DeliveryManager.history db tn = .ok [] := by
  have hget : DeliveryManager.get db tn = .ok none := DeliveryManager.get_of_no_match db tn h
  have hc : DeliveryManager.updateCommit db tn ns now = db := by
    unfold DeliveryManager.updateCommit
    rw [DeliveryManager.map_updateRow_of_no_match db tn ns _ now h]
  refine ⟨?_, hget, ?_⟩
  · unfold DeliveryManager.update_status
    rw [hc, hget]
  · unfold DeliveryManager.history
    rw [hget]

theorem update_status_unknown_absent_like_reads_witness :
    (DeliveryManager.update_status sampleDB "BRZZZZZZZZZZ" "in_transit" "" "" "u0" "u1" false).1
        = .ok none ∧
    DeliveryManager.get sampleDB "BRZZZZZZZZZZ" = .ok none ∧
    DeliveryManager.history sampleDB "BRZZZZZZZZZZ" = .ok [] :=
  update_status_unknown_absent_like_reads sampleDB "BRZZZZZZZZZZ" "in_transit" "" "" "u0" "u1"
    false (by decide)

/-! ## C10 -/

/-- C10: for every tracking number that identifies no stored Shipment,
`update_status` leaves the entire store unchanged (no delivery row modified,
no tracking event appended) and returns the absent result. -/
theorem update_status_unknown_frame (db : DB) (tn ns loc msg now en : String) (f : Bool)
    (h : ∀ r ∈ db.deliveries, r.tracking_number ≠ tn) :
    DeliveryManager.update_status db tn ns loc msg now en f = (.ok none, db) := by
  have hc : DeliveryManager.updateCommit db tn ns now = db := by
    unfold DeliveryManager.updateCommit
    rw [DeliveryManager.map_updateRow_of_no_match db tn ns _ now h]
  unfold DeliveryManager.update_status
  rw [hc, DeliveryManager.get_of_no_match db tn h]

theorem update_status_unknown_frame_witness :
    DeliveryManager.update_status sampleDB "BRZZZZZZZZZZ" "delivered" "loc" "msg" "u0" "u1" false
      = (.ok none, sampleDB) :=
  update_status_unknown_frame sampleDB "BRZZZZZZZZZZ" "delivered" "loc" "msg" "u0" "u1" false
    (by decide)

/-! ## C2 -/

/-- C2, counterexample: `create` called with empty sender, recipient and
destination does not fail — it succeeds and stores both the Shipment row and
the creation event, contrary to the claimed `ValidationError` with no state
change. -/
theorem create_empty_fields_succeeds_cx :
    (DeliveryManager.create DB.init "" "" "" 0 "" none "" sampleRand "t0" "t1" false).1.isOk
        = true ∧
    (DeliveryManager.create DB.init "" "" "" 0 "" none "" sampleRand "t0" "t1" false).2.deliveries.length
        = 1 ∧
    (DeliveryManager.create DB.init "" "" "" 0 "" none "" sampleRand "t0" "t1" false).2.events.length
        = 1 := by
  decide

/-- C2, amended: `create` performs no validation of sender, recipient or
destination: with all three empty (and no tracking-number collision and no
storage fault) it succeeds, appending exactly the new Shipment row and its
creation event to the store. -/
theorem create_no_validation (db : DB) (w : Rat) (c : String) (e : Option String)
    (n : String) (rand : Fin 10 → Fin 36) (now en : String)
    (h : ∀ r ∈ db.deliveries, r.tracking_number ≠ genTrackingNumber rand) :
    (DeliveryManager.create db "" "" "" w c e n rand now en false).1.isOk = true ∧
    (DeliveryManager.create db "" "" "" w c e n rand now en false).2.deliveries
      = db.deliveries ++
        [DeliveryManager.createdRow db "" "" "" w c e n (genTrackingNumber rand) now] ∧
    (DeliveryManager.create db "" "" "" w c e n rand now en false).2.events
      = db.events ++
        [{ id := db.next_event_id, delivery_id := db.next_delivery_id,
           status := "pending", location := "", message := "Shipment created",
           timestamp := en }] := by
  have hany : db.deliveries.any
      (fun r => decide (r.tracking_number = genTrackingNumber rand)) = false := by
    rw [List.any_eq_false]
    intro r hr
    simpa using h r hr
  unfold DeliveryManager.create
  simp [hany, DeliveryManager.log_event, DeliveryManager.insertCommit, Except.isOk, Except.toBool]

theorem create_no_validation_witness :
    (DeliveryManager.create DB.init "" "" "" 0 "" none "" sampleRand "t0" "t1" false).1.isOk
        = true ∧
    (DeliveryManager.create DB.init "" "" "" 0 "" none "" sampleRand "t0" "t1" false).2.deliveries
      = DB.init.deliveries ++
        [DeliveryManager.createdRow DB.init "" "" "" 0 "" none ""
          (genTrackingNumber sampleRand) "t0"] ∧
    (DeliveryManager.create DB.init "" "" "" 0 "" none "" sampleRand "t0" "t1" false).2.events
      = DB.init.events ++
        [{ id := DB.init.next_event_id, delivery_id := DB.init.next_delivery_id,
           status := "pending", location := "", message := "Shipment created",
           timestamp := "t1" }] :=
  create_no_validation DB.init 0 "" none "" sampleRand "t0" "t1" (by decide)

/-! ## C6 -/

/-- C6, counterexample: when the generated tracking number collides with a
stored one, `create` raises `IntegrityError` directly to the caller with the
store unchanged — there is no internal retry with a fresh code and no
`DuplicateIdentifier`-and-retry escalation. -/
theorem create_collision_no_retry_cx :
    DeliveryManager.create sampleDB "x" "y" "z" 0 "" none "" sampleRand "u0" "u1" false
      = (.error .integrityError, sampleDB) := by
  decide

/-- C6, amended: if the generated tracking number collides with an existing
Shipment's, `create` fails with the storage layer's uniqueness-constraint
error (`IntegrityError`), which propagates to the caller unchanged; the
store is untouched and no retry with a freshly generated code happens inside
the operation. -/
theorem create_collision_integrity_error (db : DB) (s rc dst : String) (w : Rat)
    (c : String) (e : Option String) (n : String) (rand : Fin 10 → Fin 36)
    (now en : String) (f : Bool)
    (h : ∃ r ∈ db.deliveries, r.tracking_number = genTrackingNumber rand) :
    DeliveryManager.create db s rc dst w c e n rand now en f
      = (.error .integrityError, db) := by
  have hany : db.deliveries.any
      (fun r => decide (r.tracking_number = genTrackingNumber rand)) = true := by
    rw [List.any_eq_true]
    obtain ⟨r, hr, htn⟩ := h
    exact ⟨r, hr, by simpa using htn⟩
  unfold DeliveryManager.create
  simp [hany]

theorem create_collision_integrity_error_witness :
    DeliveryManager.create sampleDB "x" "y" "z" 0 "" none "" sampleRand "u0" "u1" true
      = (.error .integrityError, sampleDB) :=
  create_collision_integrity_error sampleDB "x" "y" "z" 0 "" none "" sampleRand "u0" "u1" true
    (by decide)

/-! ## C3 -/

/-- The store left behind when the creation-event insert of a `create` on a
fresh database fails: the first transaction (the Shipment insert) had
already committed. -/
def dbEventFault : DB :=
  (DeliveryManager.create DB.init "a" "b" "c" 0 "" none "" sampleRand "t0" "t1" true).2

/-- C3, counterexample: a reachable store state (reached by a single
`create` whose event-append insert fails) holds one Shipment row and no
TrackingEvent at all — the inserted Shipment stays visible although its
creation event was never written, so the claimed Shipment-iff-creation-event
pairing does not hold in every reachable state. -/
theorem create_event_fault_orphan_shipment_cx :
    Reachable dbEventFault ∧ dbEventFault.deliveries.length = 1 ∧
      dbEventFault.events = [] :=
  ⟨⟨[.createOp "a" "b" "c" 0 "" none "" sampleRand "t0" "t1" true], rfl⟩,
   by decide, by decide⟩

/-- C3, amended: `create` commits the Shipment insert in its own transaction
before the creation event is appended in a second, separate transaction; if
that event append fails, the error propagates with the already-committed
Shipment row still in the store and no TrackingEvent written — there is no
rollback and no compensating cleanup. -/
theorem create_event_fault_keeps_shipment (db : DB) (s rc dst : String) (w : Rat)
    (c : String) (e : Option String) (n : String) (rand : Fin 10 → Fin 36)
    (now en : String)
    (h : ∀ r ∈ db.deliveries, r.tracking_number ≠ genTrackingNumber rand) :
    (DeliveryManager.create db s rc dst w c e n rand now en true).1
      = .error .operationalError ∧
    (DeliveryManager.create db s rc dst w c e n rand now en true).2.deliveries
      = db.deliveries ++
        [DeliveryManager.createdRow db s rc dst w c e n (genTrackingNumber rand) now] ∧
    (DeliveryManager.create db s rc dst w c e n rand now en true).2.events = db.events := by
  have hany : db.deliveries.any
      (fun r => decide (r.tracking_number = genTrackingNumber rand)) = false := by
    rw [List.any_eq_false]
    intro r hr
    simpa using h r hr
  unfold DeliveryManager.create
  simp [hany, DeliveryManager.insertCommit]

theorem create_event_fault_keeps_shipment_witness :
    (DeliveryManager.create DB.init "a" "b" "c" 0 "" none "" sampleRand "t0" "t1" true).1
      = .error .operationalError ∧
    (DeliveryManager.create DB.init "a" "b" "c" 0 "" none "" sampleRand "t0" "t1" true).2.deliveries
      = DB.init.deliveries ++
        [DeliveryManager.createdRow DB.init "a" "b" "c" 0 "" none ""
          (genTrackingNumber sampleRand) "t0"] ∧
    (DeliveryManager.create DB.init "a" "b" "c" 0 "" none "" sampleRand "t0" "t1" true).2.events
      = DB.init.events :=
  create_event_fault_keeps_shipment DB.init "a" "b" "c" 0 "" none "" sampleRand "t0" "t1"
    (by decide)

/-! ## C9 -/

namespace DeliveryManager

/-- Decoding a batch of rows fails as soon as one row's stored status does
not decode. -/
theorem decodeRows_error_of_mem (rows : List DeliveryRow) (r : DeliveryRow)
    (hr : r ∈ rows) (he : row_to_delivery r = .error .valueError) :
    ∃ e, decodeRows rows = .error e := by
  induction rows with
  | nil => cases hr
  | cons a as ih =>
      cases hd : row_to_delivery a with
      | error e => exact ⟨e, by unfold decodeRows; rw [hd]⟩
      | ok d =>
          rcases List.mem_cons.mp hr with rfl | hmem
          · rw [hd] at he; cases he
          · obtain ⟨e, hrec⟩ := ih hmem
            refine ⟨e, ?_⟩
            unfold decodeRows
            rw [hd, hrec]

/-- The UPDATE statement does not change which row `find?` locates: it
rewrites the first matching row in place. -/
theorem find?_updateCommit (db : DB) (tn ns now : String) (r0 : DeliveryRow)
    (hf : db.deliveries.find? (fun r => decide (r.tracking_number = tn)) = some r0) :
    (updateCommit db tn ns now).deliveries.find? (fun r => decide (r.tracking_number = tn))
      = some (updateRow tn ns
          (if ns = DeliveryStatus.delivered.value then some now else none) now r0) := by
  unfold updateCommit
  rw [show ({ db with deliveries := db.deliveries.map (updateRow tn ns
      (if ns = DeliveryStatus.delivered.value then some now else none) now) } : DB).deliveries
    = db.deliveries.map (updateRow tn ns
      (if ns = DeliveryStatus.delivered.value then some now else none) now) from rfl]
  rw [List.find?_map]
  have hpu : ((fun r : DeliveryRow => decide (r.tracking_number = tn)) ∘
      updateRow tn ns (if ns = DeliveryStatus.delivered.value then some now else none) now)
      = fun r : DeliveryRow => decide (r.tracking_number = tn) := by
    funext r
    simp [Function.comp, updateRow_tracking_number]
  rw [hpu, hf]
  rfl

end DeliveryManager

/-- C9: `update_status` does not validate `new_status` against the eight
declared values: with a matching stored Shipment and an undeclared status
string, it first commits the status change and then raises `ValueError`
re-reading the row, so the call errors, no TrackingEvent is appended, the
poisoned status sits in the store, and every subsequent `get`,
`list_deliveries` and `history` touching that row raises too. -/
theorem update_status_unvalidated_status_poisons_row (db : DB)
    (tn ns loc msg now en : String) (f : Bool)
    (h1 : DeliveryStatus.ofValue? ns = none)
    (h2 : (db.deliveries.find? (fun r => decide (r.tracking_number = tn))).isSome = true) :
    (DeliveryManager.update_status db tn ns loc msg now en f).1 = .error .valueError ∧
    (DeliveryManager.update_status db tn ns loc msg now en f).2.events = db.events ∧
    (∃ r ∈ (DeliveryManager.update_status db tn ns loc msg now en f).2.deliveries,
       r.tracking_number = tn ∧ r.status = ns) ∧
    DeliveryManager.get (DeliveryManager.update_status db tn ns loc msg now en f).2 tn
      = .error .valueError ∧
    (∃ e, DeliveryManager.list_deliveries
      (DeliveryManager.update_status db tn ns loc msg now en f).2 none = .error e) ∧
    DeliveryManager.history (DeliveryManager.update_status db tn ns loc msg now en f).2 tn
      = .error .valueError := by
  obtain ⟨r0, hf⟩ := Option.isSome_iff_exists.mp h2
  have hp : r0.tracking_number = tn := by simpa using List.find?_some hf
  set a : Option String :=
    if ns = DeliveryStatus.delivered.value then some now else none with ha
  have hfind1 := DeliveryManager.find?_updateCommit db tn ns now r0 hf
  rw [← ha] at hfind1
  have hstat : (DeliveryManager.updateRow tn ns a now r0).status = ns := by
    unfold DeliveryManager.updateRow
    rw [if_pos hp]
  have hdecode : DeliveryManager.row_to_delivery (DeliveryManager.updateRow tn ns a now r0)
      = .error .valueError := by
    unfold DeliveryManager.row_to_delivery
    rw [hstat, h1]
  have hget1 : DeliveryManager.get (DeliveryManager.updateCommit db tn ns now) tn
      = .error .valueError := by
    unfold DeliveryManager.get
    rw [hfind1]
    show (DeliveryManager.row_to_delivery (DeliveryManager.updateRow tn ns a now r0)).map some
      = .error .valueError
    rw [hdecode]
    rfl
  have hrun : DeliveryManager.update_status db tn ns loc msg now en f
      = (.error .valueError, DeliveryManager.updateCommit db tn ns now) := by
    unfold DeliveryManager.update_status
    rw [hget1]
  have hbadmem : DeliveryManager.updateRow tn ns a now r0
      ∈ (DeliveryManager.updateCommit db tn ns now).deliveries := by
    unfold DeliveryManager.updateCommit
    rw [← ha]
    exact List.mem_map_of_mem _ (List.mem_of_find?_eq_some hf)
  refine ⟨by rw [hrun], by rw [hrun]; rfl, ?_, ?_, ?_, ?_⟩
  · refine ⟨DeliveryManager.updateRow tn ns a now r0, ?_, ?_, hstat⟩
    · rw [hrun]; exact hbadmem
    · rw [DeliveryManager.updateRow_tracking_number]; exact hp
  · rw [hrun]; exact hget1
  · rw [hrun]
    have hsortmem : DeliveryManager.updateRow tn ns a now r0
        ∈ DeliveryManager.sortByUpdatedDesc
            (DeliveryManager.updateCommit db tn ns now).deliveries := by
      unfold DeliveryManager.sortByUpdatedDesc
      exact (List.perm_insertionSort _ _).mem_iff.mpr hbadmem
    exact DeliveryManager.decodeRows_error_of_mem _ _ hsortmem hdecode
  · rw [hrun]
    unfold DeliveryManager.history
    rw [hget1]

theorem update_status_unvalidated_status_poisons_row_witness :
    (DeliveryManager.update_status sampleDB "BRAAAAAAAAAA" "lost" "" "" "u0" "u1" false).1
        = .error .valueError ∧
    (DeliveryManager.update_status sampleDB "BRAAAAAAAAAA" "lost" "" "" "u0" "u1" false).2.events
        = sampleDB.events ∧
    (∃ r ∈ (DeliveryManager.update_status sampleDB "BRAAAAAAAAAA" "lost" "" "" "u0" "u1"
        false).2.deliveries, r.tracking_number = "BRAAAAAAAAAA" ∧ r.status = "lost") ∧
    DeliveryManager.get
      (DeliveryManager.update_status sampleDB "BRAAAAAAAAAA" "lost" "" "" "u0" "u1" false).2
      "BRAAAAAAAAAA" = .error .valueError ∧
    (∃ e, DeliveryManager.list_deliveries
      (DeliveryManager.update_status sampleDB "BRAAAAAAAAAA" "lost" "" "" "u0" "u1" false).2
      none = .error e) ∧
    DeliveryManager.history
      (DeliveryManager.update_status sampleDB "BRAAAAAAAAAA" "lost" "" "" "u0" "u1" false).2
      "BRAAAAAAAAAA" = .error .valueError :=
  update_status_unvalidated_status_poisons_row sampleDB "BRAAAAAAAAAA" "lost" "" "" "u0" "u1"
    false (by decide) (by decide)

/-! ## C8 -/

/-- C8: every Shipment returned by a successful `create` carries a tracking
number of the fixed shape — the 2-character prefix `BR` followed by exactly
10 characters drawn from the alphabet A–Z, 0–9 — and that tracking number
differs from every previously stored Shipment's (the UNIQUE constraint
rejects a colliding insert, so a successful `create` implies freshness). -/
theorem create_tracking_number_shape_unique (db : DB) (s rc dst : String) (w : Rat)
    (c : String) (e : Option String) (n : String) (rand : Fin 10 → Fin 36)
    (now en : String) (f : Bool) (d : Delivery) (db2 : DB)
    (h : DeliveryManager.create db s rc dst w c e n rand now en f = (.ok d, db2)) :
    (∃ cs : List Char, d.tracking_number.data = 'B' :: 'R' :: cs ∧ cs.length = 10 ∧
       ∀ ch ∈ cs, ch ∈ trackingAlphabet) ∧
    ∀ r ∈ db.deliveries, r.tracking_number ≠ d.tracking_number := by
  unfold DeliveryManager.create at h
  by_cases hany : db.deliveries.any
      (fun r => decide (r.tracking_number = genTrackingNumber rand)) = true
  · rw [if_pos hany] at h
    simp at h
  · rw [if_neg hany] at h
    by_cases hf : f = true
    · rw [if_pos hf] at h
      simp at h
    · rw [if_neg hf] at h
      rw [Prod.mk.injEq] at h
      obtain ⟨h1, h2⟩ := h
      have hd := Except.ok.inj h1
      subst hd
      constructor
      · refine ⟨(List.finRange 10).map (fun i =>
          trackingAlphabet.get (Fin.cast trackingAlphabet_length.symm (rand i))), ?_, ?_, ?_⟩
        · show (genTrackingNumber rand).data = _
          unfold genTrackingNumber
          rw [String.data_append]
          rfl
        · simp
        · intro ch hch
          obtain ⟨i, _, rfl⟩ := List.mem_map.mp hch
          exact List.get_mem _ _ _
      · intro r hr
        have hany2 : db.deliveries.any
            (fun r => decide (r.tracking_number = genTrackingNumber rand)) = false := by
          simpa using hany
        have := List.any_eq_false.mp hany2 r hr
        simpa using this

theorem create_tracking_number_shape_unique_witness :
    (∃ cs : List Char,
       (({ id := 1, tracking_number := genTrackingNumber sampleRand, sender := "a",
           recipient := "b", destination := "c", weight_kg := 0,
           status := .pending, estimated_delivery := none, actual_delivery := none,
           courier := "", notes := "", created_at := "t0",
           updated_at := "t0" } : Delivery)).tracking_number.data = 'B' :: 'R' :: cs ∧
       cs.length = 10 ∧ ∀ ch ∈ cs, ch ∈ trackingAlphabet) ∧
    ∀ r ∈ DB.init.deliveries,
      r.tracking_number ≠
        (({ id := 1, tracking_number := genTrackingNumber sampleRand, sender := "a",
            recipient := "b", destination := "c", weight_kg := 0,
            status := .pending, estimated_delivery := none, actual_delivery := none,
            courier := "", notes := "", created_at := "t0",
            updated_at := "t0" } : Delivery)).tracking_number :=
  create_tracking_number_shape_unique DB.init "a" "b" "c" 0 "" none "" sampleRand "t0" "t1"
    false _ sampleDB (by decide)

/-! ## Store invariants maintained by the manager -/

/-- Structural facts the SQLite schema guarantees and every reachable store
satisfies: delivery ids stay below the AUTOINCREMENT counter, every event's
foreign key stays below it too, and delivery ids are pairwise distinct
(INTEGER PRIMARY KEY). -/
def DB.Inv (db : DB) : Prop :=
  (∀ r ∈ db.deliveries, r.id < db.next_delivery_id) ∧
  (∀ e ∈ db.events, e.delivery_id < db.next_delivery_id) ∧
  List.Pairwise (fun a b : DeliveryRow => a.id ≠ b.id) db.deliveries

theorem DB.inv_init : DB.init.Inv := by
  refine ⟨?_, ?_, ?_⟩ <;> simp [DB.init]

namespace DeliveryManager

theorem inv_insertCommit (db : DB) (row : DeliveryRow) (h : db.Inv)
    (hid : row.id = db.next_delivery_id) : (insertCommit db row).Inv := by
  obtain ⟨h1, h2, h3⟩ := h
  refine ⟨?_, ?_, ?_⟩
  · intro r hr
    rcases List.mem_append.mp hr with hr | hr
    · exact Nat.lt_succ_of_lt (h1 r hr)
    · rcases List.mem_singleton.mp hr with rfl
      rw [hid]
      exact Nat.lt_succ_self _
  · intro ev hev
    exact Nat.lt_succ_of_lt (h2 ev hev)
  · show List.Pairwise (fun a b : DeliveryRow => a.id ≠ b.id) (db.deliveries ++ [row])
    rw [List.pairwise_append]
    refine ⟨h3, List.pairwise_singleton _ _, ?_⟩
    intro a ha b hb
    rcases List.mem_singleton.mp hb with rfl
    rw [hid]
    exact Nat.ne_of_lt (h1 a ha)

theorem inv_log_event (db : DB) (i : Nat) (st loc msg now : String) (h : db.Inv)
    (hi : i < db.next_delivery_id) : (log_event db i st loc msg now).Inv := by
  obtain ⟨h1, h2, h3⟩ := h
  refine ⟨h1, ?_, h3⟩
  intro ev hev
  rcases List.mem_append.mp hev with hev | hev
  · exact h2 ev hev
  · rcases List.mem_singleton.mp hev with rfl
    exact hi

/-- A successful `get` returns the decoding of a stored row with the
requested tracking number. -/
theorem get_ok_some (db : DB) (tn : String) (d : Delivery)
    (h : get db tn = .ok (some d)) :
    ∃ r ∈ db.deliveries, row_to_delivery r = .ok d ∧ r.tracking_number = tn := by
  unfold get at h
  cases hf : db.deliveries.find? (fun r => decide (r.tracking_number = tn)) with
  | none =>
      rw [hf] at h
      have h2 : (Except.ok Option.none : Except PyError (Option Delivery))
        = .ok (some d) := h
      simp at h2
  | some r =>
      rw [hf] at h
      have h2 : (row_to_delivery r).map some = .ok (some d) := h
      cases hd : row_to_delivery r with
      | error e =>
          rw [hd] at h2
          cases h2
      | ok d0 =>
          rw [hd] at h2
          have hdd : d0 = d := by
            have h3 : (Except.ok (some d0) : Except PyError (Option Delivery))
              = .ok (some d) := h2
            exact Option.some.inj (Except.ok.inj h3)
          exact ⟨r, List.mem_of_find?_eq_some hf, hdd ▸ hd,
            by simpa using List.find?_some hf⟩

theorem inv_updateCommit (db : DB) (tn ns now : String) (h : db.Inv) :
    (updateCommit db tn ns now).Inv := by
  obtain ⟨h1, h2, h3⟩ := h
  refine ⟨?_, h2, ?_⟩
  · intro r hr
    obtain ⟨r0, hr0, rfl⟩ := List.mem_map.mp hr
    rw [updateRow_id]
    exact h1 r0 hr0
  · show List.Pairwise (fun a b : DeliveryRow => a.id ≠ b.id)
      (db.deliveries.map (updateRow tn ns
        (if ns = DeliveryStatus.delivered.value then some now else none) now))
    rw [List.pairwise_map]
    refine h3.imp ?_
    intro a b hab
    rw [updateRow_id, updateRow_id]
    exact hab

theorem inv_exec (db : DB) (op : Op) (h : db.Inv) : (Op.exec db op).Inv := by
  cases op with
  | createOp s rc dst w c e n rand now en f =>
      show ((create db s rc dst w c e n rand now en f).2).Inv
      unfold create
      by_cases hany : db.deliveries.any
          (fun r => decide (r.tracking_number = genTrackingNumber rand)) = true
      · rw [if_pos hany]
        exact h
      · rw [if_neg hany]
        by_cases hf : f = true
        · rw [if_pos hf]
          exact inv_insertCommit db _ h rfl
        · rw [if_neg hf]
          refine inv_log_event _ _ _ _ _ _ (inv_insertCommit db _ h rfl) ?_
          exact Nat.lt_succ_self _
  | updateOp tn ns loc msg now en f =>
      show ((update_status db tn ns loc msg now en f).2).Inv
      unfold update_status
      cases hget : get (updateCommit db tn ns now) tn with
      | error e =>
          exact inv_updateCommit db tn ns now h
      | ok o =>
          cases o with
          | none =>
              exact inv_updateCommit db tn ns now h
          | some d =>
              cases f with
              | true => exact inv_updateCommit db tn ns now h
              | false =>
                have hinv1 := inv_updateCommit db tn ns now h
                obtain ⟨r, hrmem, hrd, -⟩ := get_ok_some _ tn d hget
                refine inv_log_event _ _ _ _ _ _ hinv1 ?_
                rw [row_to_delivery_ok_id r d hrd]
                exact hinv1.1 r hrmem

end DeliveryManager

theorem execTrace_inv (ops : List Op) (db : DB) (h : db.Inv) : (execTrace db ops).Inv := by
  induction ops generalizing db with
  | nil => exact h
  | cons op ops ih => exact ih (Op.exec db op) (DeliveryManager.inv_exec db op h)

theorem reachable_inv (db : DB) (h : Reachable db) : db.Inv := by
  obtain ⟨ops, rfl⟩ := h
  exact execTrace_inv ops DB.init DB.inv_init

/-! ## Characterization lemmas for the two mutating operations -/

namespace DeliveryManager

/-- `create` when the generated tracking number collides: single failed
INSERT, error propagated, store untouched. -/
theorem create_collision_eq (db : DB) (s rc dst : String) (w : Rat) (c : String)
    (e : Option String) (n : String) (rand : Fin 10 → Fin 36) (now en : String) (f : Bool)
    (hb : db.deliveries.any
      (fun r => decide (r.tracking_number = genTrackingNumber rand)) = true) :
    create db s rc dst w c e n rand now en f = (.error .integrityError, db) := by
  unfold create
  rw [if_pos hb]

/-- `create` on the happy path (fresh tracking number, no event fault). -/
theorem create_success_eq (db : DB) (s rc dst : String) (w : Rat) (c : String)
    (e : Option String) (n : String) (rand : Fin 10 → Fin 36) (now en : String)
    (hb : db.deliveries.any
      (fun r => decide (r.tracking_number = genTrackingNumber rand)) = false) :
    create db s rc dst w c e n rand now en false =
      (.ok { id := db.next_delivery_id, tracking_number := genTrackingNumber rand,
             sender := s, recipient := rc, destination := dst, weight_kg := w,
             status := .pending, estimated_delivery := e, actual_delivery := none,
             courier := c, notes := n, created_at := now, updated_at := now },
       log_event
         (insertCommit db (createdRow db s rc dst w c e n (genTrackingNumber rand) now))
         db.next_delivery_id "pending" "" "Shipment created" en) := by
  unfold create
  rw [if_neg (by simp [hb])]
  rfl

/-- `update_status` when the re-read succeeds and no event fault occurs. -/
theorem update_status_success_eq (db : DB) (tn ns loc msg now en : String) (d : Delivery)
    (hget : get (updateCommit db tn ns now) tn = .ok (some d)) :
    update_status db tn ns loc msg now en false =
      (.ok (some d), log_event (updateCommit db tn ns now) d.id ns loc msg en) := by
  unfold update_status
  rw [hget]
  rfl

/-- Inversion: a successful `update_status` that found a row means the
post-UPDATE `get` succeeded and the result is that row plus its event. -/
theorem update_status_ok_some_inv (db : DB) (tn ns loc msg now en : String) (f : Bool)
    (d : Delivery) (db2 : DB)
    (h : update_status db tn ns loc msg now en f = (.ok (some d), db2)) :
    get (updateCommit db tn ns now) tn = .ok (some d) ∧ f = false ∧
    db2 = log_event (updateCommit db tn ns now) d.id ns loc msg en := by
  unfold update_status at h
  cases hget : get (updateCommit db tn ns now) tn with
  | error e =>
      rw [hget] at h
      have h2 : ((Except.error e : Except PyError (Option Delivery)),
        updateCommit db tn ns now) = (.ok (some d), db2) := h
      simp at h2
  | ok o => cases o with
    | none =>
        rw [hget] at h
        have h2 : ((Except.ok none : Except PyError (Option Delivery)),
          updateCommit db tn ns now) = (.ok (some d), db2) := h
        simp at h2
    | some d1 =>
        rw [hget] at h
        cases f with
        | true =>
            have h2 : ((Except.error .operationalError : Except PyError (Option Delivery)),
              updateCommit db tn ns now) = (.ok (some d), db2) := h
            simp at h2
        | false =>
            have h2 : ((Except.ok (some d1) : Except PyError (Option Delivery)),
              log_event (updateCommit db tn ns now) d1.id ns loc msg en)
                = (.ok (some d), db2) := h
            rw [Prod.mk.injEq] at h2
            obtain ⟨h3, h4⟩ := h2
            have hd : d1 = d := Option.some.inj (Except.ok.inj h3)
            subst hd
            exact ⟨rfl, rfl, h4.symm⟩

/-- The post-UPDATE `find?` is the pre-UPDATE `find?` with the row rewrite
applied (the UPDATE preserves tracking numbers, hence which row is first). -/
theorem find?_updateCommit_map (db : DB) (tn ns now : String) :
    (updateCommit db tn ns now).deliveries.find? (fun r => decide (r.tracking_number = tn))
      = (db.deliveries.find? (fun r => decide (r.tracking_number = tn))).map
          (updateRow tn ns
            (if ns = DeliveryStatus.delivered.value then some now else none) now) := by
  show (db.deliveries.map (updateRow tn ns
      (if ns = DeliveryStatus.delivered.value then some now else none) now)).find?
        (fun r => decide (r.tracking_number = tn)) = _
  rw [List.find?_map]
  have hpu : ((fun r : DeliveryRow => decide (r.tracking_number = tn)) ∘
      updateRow tn ns (if ns = DeliveryStatus.delivered.value then some now else none) now)
      = fun r : DeliveryRow => decide (r.tracking_number = tn) := by
    funext r
    simp [Function.comp, updateRow_tracking_number]
  rw [hpu]

/-- `get` ignores the event table. -/
theorem get_log_event (db : DB) (i : Nat) (st loc msg now tn : String) :
    get (log_event db i st loc msg now) tn = get db tn := rfl

theorem length_sortByTimestampAsc (rows : List TrackingEventRow) :
    (sortByTimestampAsc rows).length = rows.length :=
  (List.perm_insertionSort _ _).length_eq

theorem sortByTimestampAsc_singleton (ev : TrackingEventRow) :
    sortByTimestampAsc [ev] = [ev] := rfl

end DeliveryManager

namespace DeliveryManager

/-- A successful `get` pins down the `find?` result and its decoding. -/
theorem get_ok_some_find? (db : DB) (tn : String) (d : Delivery)
    (h : get db tn = .ok (some d)) :
    ∃ r, db.deliveries.find? (fun r => decide (r.tracking_number = tn)) = some r ∧
      row_to_delivery r = .ok d := by
  unfold get at h
  cases hf : db.deliveries.find? (fun r => decide (r.tracking_number = tn)) with
  | none =>
      rw [hf] at h
      have h2 : (Except.ok Option.none : Except PyError (Option Delivery))
        = .ok (some d) := h
      simp at h2
  | some r =>
      rw [hf] at h
      have h2 : (row_to_delivery r).map some = .ok (some d) := h
      cases hd : row_to_delivery r with
      | error e =>
          rw [hd] at h2
          cases h2
      | ok d0 =>
          rw [hd] at h2
          have h3 : (Except.ok (some d0) : Except PyError (Option Delivery))
            = .ok (some d) := h2
          have hdd : d0 = d := Option.some.inj (Except.ok.inj h3)
          exact ⟨r, rfl, hdd ▸ hd⟩

/-- An absent `get` means no row carries the tracking number. -/
theorem get_ok_none_find? (db : DB) (tn : String)
    (h : get db tn = .ok none) :
    db.deliveries.find? (fun r => decide (r.tracking_number = tn)) = none := by
  unfold get at h
  cases hf : db.deliveries.find? (fun r => decide (r.tracking_number = tn)) with
  | none => rfl
  | some r =>
      rw [hf] at h
      have h2 : (row_to_delivery r).map some = .ok none := h
      cases hd : row_to_delivery r with
      | error e =>
          rw [hd] at h2
          cases h2
      | ok d0 =>
          rw [hd] at h2
          have h3 : (Except.ok (some d0) : Except PyError (Option Delivery))
            = .ok none := h2
          simp at h3

end DeliveryManager

/-! ## C5 -/

/-- C5: immediately after a successful `create`, the new Shipment's history
is exactly the single creation event (status `pending`, message
"Shipment created"); and every successful `update_status` grows the
Shipment's readable history by exactly one event — the log is a complete
audit trail of the status changes. -/
theorem history_complete_audit_trail :
    (∀ (db : DB) (s rc dst : String) (w : Rat) (c : String) (e : Option String)
       (n : String) (rand : Fin 10 → Fin 36) (now en : String) (d : Delivery) (db2 : DB),
       Reachable db →
       DeliveryManager.create db s rc dst w c e n rand now en false = (.ok d, db2) →
       DeliveryManager.history db2 d.tracking_number
         = .ok [{ id := db.next_event_id, delivery_id := d.id, status := "pending",
                  location := "", message := "Shipment created", timestamp := en }]) ∧
    (∀ (db : DB) (tn ns loc msg now en : String) (d : Delivery) (db2 : DB)
       (l : List TrackingEventRow),
       DeliveryManager.update_status db tn ns loc msg now en false = (.ok (some d), db2) →
       DeliveryManager.history db tn = .ok l →
       ∃ l2, DeliveryManager.history db2 tn = .ok l2 ∧ l2.length = l.length + 1) := by
  constructor
  · intro db s rc dst w c e n rand now en d db2 hReach hc
    obtain ⟨hI1, hI2, hI3⟩ := reachable_inv db hReach
    have hany : db.deliveries.any
        (fun r => decide (r.tracking_number = genTrackingNumber rand)) = false := by
      cases hb : db.deliveries.any
          (fun r => decide (r.tracking_number = genTrackingNumber rand)) with
      | false => rfl
      | true =>
          rw [DeliveryManager.create_collision_eq db s rc dst w c e n rand now en false hb]
            at hc
          simp at hc
    rw [DeliveryManager.create_success_eq db s rc dst w c e n rand now en hany] at hc
    rw [Prod.mk.injEq] at hc
    obtain ⟨h1, h2⟩ := hc
    have hd := (Except.ok.inj h1).symm
    subst hd
    subst h2
    show DeliveryManager.history (DeliveryManager.log_event (DeliveryManager.insertCommit db
        (DeliveryManager.createdRow db s rc dst w c e n (genTrackingNumber rand) now))
        db.next_delivery_id "pending" "" "Shipment created" en) (genTrackingNumber rand)
      = .ok [{ id := db.next_event_id, delivery_id := db.next_delivery_id,
               status := "pending", location := "", message := "Shipment created",
               timestamp := en }]
    have hfindold : db.deliveries.find?
        (fun r => decide (r.tracking_number = genTrackingNumber rand)) = none := by
      rw [List.find?_eq_none]
      intro r hr
      simpa using List.any_eq_false.mp hany r hr
    have hfind : (DeliveryManager.log_event (DeliveryManager.insertCommit db
        (DeliveryManager.createdRow db s rc dst w c e n (genTrackingNumber rand) now))
        db.next_delivery_id "pending" "" "Shipment created" en).deliveries.find?
          (fun r => decide (r.tracking_number = genTrackingNumber rand))
        = some (DeliveryManager.createdRow db s rc dst w c e n (genTrackingNumber rand) now)
        := by
      show (db.deliveries ++ [DeliveryManager.createdRow db s rc dst w c e n
          (genTrackingNumber rand) now]).find?
            (fun r => decide (r.tracking_number = genTrackingNumber rand)) = _
      rw [List.find?_append, hfindold]
      simp [DeliveryManager.createdRow]
    have hget2 : DeliveryManager.get (DeliveryManager.log_event (DeliveryManager.insertCommit
        db (DeliveryManager.createdRow db s rc dst w c e n (genTrackingNumber rand) now))
        db.next_delivery_id "pending" "" "Shipment created" en) (genTrackingNumber rand)
        = .ok (some
          { id := db.next_delivery_id, tracking_number := genTrackingNumber rand,
            sender := s, recipient := rc, destination := dst, weight_kg := w,
            status := .pending, estimated_delivery := e, actual_delivery := none,
            courier := c, notes := n, created_at := now, updated_at := now }) := by
      unfold DeliveryManager.get
      rw [hfind]
      rfl
    unfold DeliveryManager.history
    rw [hget2]
    show Except.ok (DeliveryManager.sortByTimestampAsc ((db.events ++
        [({ id := db.next_event_id, delivery_id := db.next_delivery_id, status := "pending",
            location := "", message := "Shipment created",
            timestamp := en } : TrackingEventRow)]).filter
          (fun e2 => decide (e2.delivery_id = db.next_delivery_id)))) = _
    rw [List.filter_append]
    have hnil : db.events.filter
        (fun e2 => decide (e2.delivery_id = db.next_delivery_id)) = [] := by
      rw [List.filter_eq_nil_iff]
      intro ev2 hev2
      simpa using Nat.ne_of_lt (hI2 ev2 hev2)
    rw [hnil]
    simp [DeliveryManager.sortByTimestampAsc]
  · intro db tn ns loc msg now en d db2 l hu hh
    obtain ⟨hget, -, hdb2⟩ :=
      DeliveryManager.update_status_ok_some_inv db tn ns loc msg now en false d db2 hu
    subst hdb2
    obtain ⟨ru, hfu, hdu⟩ := DeliveryManager.get_ok_some_find? _ tn d hget
    unfold DeliveryManager.history at hh
    cases hget0 : DeliveryManager.get db tn with
    | error e =>
        rw [hget0] at hh
        have hh2 : (Except.error e : Except PyError (List TrackingEventRow)) = .ok l := hh
        cases hh2
    | ok o => cases o with
      | none =>
          have hfind0 := DeliveryManager.get_ok_none_find? db tn hget0
          rw [DeliveryManager.find?_updateCommit_map db tn ns now, hfind0] at hfu
          cases hfu
      | some d0 =>
          rw [hget0] at hh
          have hl := (Except.ok.inj hh).symm
          obtain ⟨r0, hfind0, hdec0⟩ := DeliveryManager.get_ok_some_find? db tn d0 hget0
          rw [DeliveryManager.find?_updateCommit_map db tn ns now, hfind0] at hfu
          have hru : ru = DeliveryManager.updateRow tn ns
              (if ns = DeliveryStatus.delivered.value then some now else none) now r0 :=
            (Option.some.inj hfu).symm
          have hid1 : d0.id = r0.id := DeliveryManager.row_to_delivery_ok_id r0 d0 hdec0
          have hid2 : d.id = r0.id := by
            rw [DeliveryManager.row_to_delivery_ok_id ru d hdu, hru,
              DeliveryManager.updateRow_id]
          have hid : d0.id = d.id := hid1.trans hid2.symm
          have hget2 : DeliveryManager.get (DeliveryManager.log_event
              (DeliveryManager.updateCommit db tn ns now) d.id ns loc msg en) tn
              = .ok (some d) := by
            rw [DeliveryManager.get_log_event]
            exact hget
          have hhist2 : DeliveryManager.history (DeliveryManager.log_event
              (DeliveryManager.updateCommit db tn ns now) d.id ns loc msg en) tn
              = .ok (DeliveryManager.sortByTimestampAsc
                  ((db.events ++
                    [({ id := db.next_event_id, delivery_id := d.id, status := ns,
                        location := loc, message := msg,
                        timestamp := en } : TrackingEventRow)]).filter
                    (fun e2 => decide (e2.delivery_id = d.id)))) := by
            unfold DeliveryManager.history
            rw [hget2]
            rfl
          refine ⟨_, hhist2, ?_⟩
          rw [DeliveryManager.length_sortByTimestampAsc, List.filter_append,
            List.length_append, hl, DeliveryManager.length_sortByTimestampAsc]
          simp only [hid]
          simp

theorem history_complete_audit_trail_witness :
    (DeliveryManager.history sampleDB (genTrackingNumber sampleRand)
      = .ok [{ id := 1, delivery_id := 1, status := "pending", location := "",
               message := "Shipment created", timestamp := "t1" }]) ∧
    (∃ l2, DeliveryManager.history
        (⟨[⟨1, "BRAAAAAAAAAA", "a", "b", "c", 0, "picked_up", none, none, "", "", "t0", "u0"⟩],
          [⟨1, 1, "pending", "", "Shipment created", "t1"⟩,
           ⟨2, 1, "picked_up", "", "", "u1"⟩], 2, 3⟩ : DB) "BRAAAAAAAAAA" = .ok l2 ∧
       l2.length
         = [(⟨1, 1, "pending", "", "Shipment created", "t1"⟩ : TrackingEventRow)].length + 1) :=
  ⟨history_complete_audit_trail.1 DB.init "a" "b" "c" 0 "" none "" sampleRand "t0" "t1"
      ⟨1, genTrackingNumber sampleRand, "a", "b", "c", 0, .pending, none, none, "", "",
        "t0", "t0"⟩ sampleDB ⟨[], rfl⟩ (by decide),
   history_complete_audit_trail.2 sampleDB "BRAAAAAAAAAA" "picked_up" "" "" "u0" "u1"
      ⟨1, "BRAAAAAAAAAA", "a", "b", "c", 0, .picked_up, none, none, "", "", "t0", "u0"⟩
      (⟨[⟨1, "BRAAAAAAAAAA", "a", "b", "c", 0, "picked_up", none, none, "", "", "t0", "u0"⟩],
        [⟨1, 1, "pending", "", "Shipment created", "t1"⟩,
         ⟨2, 1, "picked_up", "", "", "u1"⟩], 2, 3⟩ : DB)
      [⟨1, 1, "pending", "", "Shipment created", "t1"⟩] (by decide) (by decide)⟩

/-! ## Ordering machinery for C7 -/

namespace DeliveryManager

theorem charListLe_total (as : List Char) :
    ∀ bs, charListLe as bs = true ∨ charListLe bs as = true := by
  induction as with
  | nil => intro bs; left; rfl
  | cons a as ih =>
      intro bs
      cases bs with
      | nil => right; rfl
      | cons b bs =>
          unfold charListLe
          by_cases h1 : a.toNat < b.toNat
          · left; rw [if_pos h1]
          · by_cases h2 : b.toNat < a.toNat
            · right; rw [if_pos h2]
            · rw [if_neg h1, if_neg h2, if_neg h2, if_neg h1]
              exact ih bs

theorem charListLe_trans (as : List Char) :
    ∀ bs cs, charListLe as bs = true → charListLe bs cs = true →
      charListLe as cs = true := by
  induction as with
  | nil => intro bs cs h1 h2; rfl
  | cons a as ih =>
      intro bs cs h1 h2
      cases bs with
      | nil => cases h1
      | cons b bs =>
          cases cs with
          | nil => cases h2
          | cons c cs =>
              unfold charListLe at h1 h2 ⊢
              by_cases hab : a.toNat < b.toNat
              · by_cases hbc : b.toNat < c.toNat
                · rw [if_pos (show a.toNat < c.toNat from by omega)]
                · by_cases hcb : c.toNat < b.toNat
                  · rw [if_neg hbc, if_pos hcb] at h2
                    cases h2
                  · rw [if_pos (show a.toNat < c.toNat from by omega)]
              · by_cases hba : b.toNat < a.toNat
                · rw [if_neg hab, if_pos hba] at h1
                  cases h1
                · rw [if_neg hab, if_neg hba] at h1
                  by_cases hbc : b.toNat < c.toNat
                  · rw [if_pos (show a.toNat < c.toNat from by omega)]
                  · by_cases hcb : c.toNat < b.toNat
                    · rw [if_neg hbc, if_pos hcb] at h2
                      cases h2
                    · rw [if_neg hbc, if_neg hcb] at h2
                      rw [if_neg (show ¬a.toNat < c.toNat from by omega),
                        if_neg (show ¬c.toNat < a.toNat from by omega)]
                      exact ih bs cs h1 h2

theorem textLe_total (a b : String) : textLe a b = true ∨ textLe b a = true :=
  charListLe_total a.data b.data

theorem textLe_trans (a b c : String) :
    textLe a b = true → textLe b c = true → textLe a c = true :=
  charListLe_trans a.data b.data c.data

instance : IsTotal DeliveryRow updatedDescRel :=
  ⟨fun a b => textLe_total b.updated_at a.updated_at⟩

instance : IsTrans DeliveryRow updatedDescRel :=
  ⟨fun a b c hab hbc => textLe_trans c.updated_at b.updated_at a.updated_at hbc hab⟩

theorem decodeRows_ok_forall2 (rows : List DeliveryRow) (l : List Delivery)
    (h : decodeRows rows = .ok l) :
    List.Forall₂ (fun r d => row_to_delivery r = .ok d) rows l := by
  induction rows generalizing l with
  | nil =>
      have h2 : (Except.ok [] : Except PyError (List Delivery)) = .ok l := h
      have hl := (Except.ok.inj h2).symm
      subst hl
      exact List.Forall₂.nil
  | cons r rs ih =>
      unfold decodeRows at h
      cases hd : row_to_delivery r with
      | error e =>
          rw [hd] at h
          cases h
      | ok d =>
          rw [hd] at h
          have h2 : (match decodeRows rs with
            | .error e => (.error e : Except PyError (List Delivery))
            | .ok ds => .ok (d :: ds)) = .ok l := h
          cases hrec : decodeRows rs with
          | error e =>
              rw [hrec] at h2
              cases h2
          | ok ds =>
              rw [hrec] at h2
              have h3 : (Except.ok (d :: ds) : Except PyError (List Delivery)) = .ok l := h2
              have hl := (Except.ok.inj h3).symm
              subst hl
              exact List.Forall₂.cons hd (ih ds hrec)

theorem forall2_exists_left {R : DeliveryRow → Delivery → Prop}
    {rows : List DeliveryRow} {l : List Delivery}
    (hf : List.Forall₂ R rows l) : ∀ d ∈ l, ∃ r ∈ rows, R r d := by
  induction hf with
  | nil => intro d hd; cases hd
  | cons hrd hf2 ih =>
      intro d hd
      rcases List.mem_cons.mp hd with rfl | hd2
      · exact ⟨_, List.mem_cons_self _ _, hrd⟩
      · obtain ⟨r2, hr2, hR⟩ := ih d hd2
        exact ⟨r2, List.mem_cons_of_mem _ hr2, hR⟩

theorem forall2_pairwise_updated (rows : List DeliveryRow) (l : List Delivery)
    (hf : List.Forall₂ (fun r d => row_to_delivery r = .ok d) rows l)
    (hp : List.Pairwise updatedDescRel rows) :
    List.Pairwise
      (fun a b : Delivery => textLe b.updated_at a.updated_at = true) l := by
  induction hf with
  | nil => exact List.Pairwise.nil
  | cons hrd hf2 ih =>
      cases hp with
      | cons hhead htail =>
          refine List.Pairwise.cons ?_ (ih htail)
          intro d2 hd2
          obtain ⟨r2, hr2mem, hr2⟩ := forall2_exists_left hf2 d2 hd2
          have e1 := row_to_delivery_ok_updated_at _ _ hrd
          have e2 := row_to_delivery_ok_updated_at _ _ hr2
          rw [e1, e2]
          exact hhead r2 hr2mem

end DeliveryManager

/-! ## C7 -/

/-- C7: for every declared status value, `list_deliveries` with that filter
returns exactly the stored rows whose current status equals it (a
permutation of the filtered table, decoded row by row), and with no filter
it returns all rows; in both cases the result is ordered by `updated_at`
descending (SQLite BINARY collation, most recently touched first). -/
theorem list_deliveries_filter_and_order (db : DB) (sv : String) (st : DeliveryStatus)
    (hsv : DeliveryStatus.ofValue? sv = some st) :
    (∀ l, DeliveryManager.list_deliveries db (some sv) = .ok l →
       List.Pairwise
         (fun a b : Delivery => DeliveryManager.textLe b.updated_at a.updated_at = true) l ∧
       (∀ d ∈ l, d.status = st) ∧
       (∃ rows, rows.Perm (db.deliveries.filter (fun r => decide (r.status = sv))) ∧
         List.Forall₂ (fun r d => DeliveryManager.row_to_delivery r = .ok d) rows l)) ∧
    (∀ l, DeliveryManager.list_deliveries db none = .ok l →
       List.Pairwise
         (fun a b : Delivery => DeliveryManager.textLe b.updated_at a.updated_at = true) l ∧
       (∃ rows, rows.Perm db.deliveries ∧
         List.Forall₂ (fun r d => DeliveryManager.row_to_delivery r = .ok d) rows l)) := by
  have hne : sv ≠ "" := by
    rintro rfl
    cases hsv
  constructor
  · intro l hok
    have hok2 : DeliveryManager.decodeRows (DeliveryManager.sortByUpdatedDesc
        (db.deliveries.filter (fun r => decide (r.status = sv)))) = .ok l := by
      unfold DeliveryManager.list_deliveries at hok
      simp only [if_neg hne] at hok
      exact hok
    have hf2 := DeliveryManager.decodeRows_ok_forall2 _ _ hok2
    have hsorted : List.Pairwise DeliveryManager.updatedDescRel
        (DeliveryManager.sortByUpdatedDesc
          (db.deliveries.filter (fun r => decide (r.status = sv)))) :=
      List.sorted_insertionSort DeliveryManager.updatedDescRel _
    refine ⟨DeliveryManager.forall2_pairwise_updated _ _ hf2 hsorted, ?_, ?_⟩
    · intro d hd
      obtain ⟨r, hrmem, hr⟩ := DeliveryManager.forall2_exists_left hf2 d hd
      have hrmem2 : r ∈ db.deliveries.filter (fun r => decide (r.status = sv)) :=
        (List.perm_insertionSort DeliveryManager.updatedDescRel _).mem_iff.mp hrmem
      have hst : r.status = sv := by simpa using (List.mem_filter.mp hrmem2).2
      have hos := DeliveryManager.row_to_delivery_ok_status r d hr
      rw [hst, hsv] at hos
      exact (Option.some.inj hos).symm
    · exact ⟨_, List.perm_insertionSort DeliveryManager.updatedDescRel _, hf2⟩
  · intro l hok
    have hok2 : DeliveryManager.decodeRows
        (DeliveryManager.sortByUpdatedDesc db.deliveries) = .ok l := hok
    have hf2 := DeliveryManager.decodeRows_ok_forall2 _ _ hok2
    have hsorted : List.Pairwise DeliveryManager.updatedDescRel
        (DeliveryManager.sortByUpdatedDesc db.deliveries) :=
      List.sorted_insertionSort DeliveryManager.updatedDescRel db.deliveries
    exact ⟨DeliveryManager.forall2_pairwise_updated _ _ hf2 hsorted,
      _, List.perm_insertionSort DeliveryManager.updatedDescRel _, hf2⟩

theorem list_deliveries_filter_and_order_witness :
    (List.Pairwise
       (fun a b : Delivery => DeliveryManager.textLe b.updated_at a.updated_at = true)
       [(⟨1, "BRAAAAAAAAAA", "a", "b", "c", 0, .pending, none, none, "", "", "t0", "t0"⟩
         : Delivery)] ∧
     (∀ d ∈ [(⟨1, "BRAAAAAAAAAA", "a", "b", "c", 0, .pending, none, none, "", "", "t0", "t0"⟩
         : Delivery)], d.status = DeliveryStatus.pending) ∧
     (∃ rows, rows.Perm (sampleDB.deliveries.filter (fun r => decide (r.status = "pending"))) ∧
       List.Forall₂ (fun r d => DeliveryManager.row_to_delivery r = .ok d) rows
         [(⟨1, "BRAAAAAAAAAA", "a", "b", "c", 0, .pending, none, none, "", "", "t0", "t0"⟩
           : Delivery)])) ∧
    (List.Pairwise
       (fun a b : Delivery => DeliveryManager.textLe b.updated_at a.updated_at = true)
       [(⟨1, "BRAAAAAAAAAA", "a", "b", "c", 0, .pending, none, none, "", "", "t0", "t0"⟩
         : Delivery)] ∧
     (∃ rows, rows.Perm sampleDB.deliveries ∧
       List.Forall₂ (fun r d => DeliveryManager.row_to_delivery r = .ok d) rows
         [(⟨1, "BRAAAAAAAAAA", "a", "b", "c", 0, .pending, none, none, "", "", "t0", "t0"⟩
           : Delivery)])) :=
  ⟨(list_deliveries_filter_and_order sampleDB "pending" .pending (by decide)).1 _ (by decide),
   (list_deliveries_filter_and_order sampleDB "pending" .pending (by decide)).2 _ (by decide)⟩

/-! ## Trace machinery for C4 -/

namespace DeliveryManager

theorem createdRow_id (db : DB) (s rc dst : String) (w : Rat) (c : String)
    (e : Option String) (n tn now : String) :
    (createdRow db s rc dst w c e n tn now).id = db.next_delivery_id := rfl

/-- `create` with a fresh tracking number and a faulting event insert. -/
theorem create_fault_eq (db : DB) (s rc dst : String) (w : Rat) (c : String)
    (e : Option String) (n : String) (rand : Fin 10 → Fin 36) (now en : String)
    (hb : db.deliveries.any
      (fun r => decide (r.tracking_number = genTrackingNumber rand)) = false) :
    create db s rc dst w c e n rand now en true =
      (.error .operationalError,
       insertCommit db (createdRow db s rc dst w c e n (genTrackingNumber rand) now)) := by
  unfold create
  rw [if_neg (by simp [hb])]
  rfl

theorem create_state_deliveries (db : DB) (s rc dst : String) (w : Rat) (c : String)
    (e : Option String) (n : String) (rand : Fin 10 → Fin 36) (now en : String) (f : Bool)
    (hb : db.deliveries.any
      (fun r => decide (r.tracking_number = genTrackingNumber rand)) = false) :
    ((create db s rc dst w c e n rand now en f).2).deliveries
      = db.deliveries ++ [createdRow db s rc dst w c e n (genTrackingNumber rand) now] := by
  unfold create
  rw [if_neg (by simp [hb])]
  cases f <;> rfl

theorem create_state_next (db : DB) (s rc dst : String) (w : Rat) (c : String)
    (e : Option String) (n : String) (rand : Fin 10 → Fin 36) (now en : String) (f : Bool)
    (hb : db.deliveries.any
      (fun r => decide (r.tracking_number = genTrackingNumber rand)) = false) :
    ((create db s rc dst w c e n rand now en f).2).next_delivery_id
      = db.next_delivery_id + 1 := by
  unfold create
  rw [if_neg (by simp [hb])]
  cases f <;> rfl

theorem update_status_state_deliveries (db : DB) (tn ns loc msg now en : String) (f : Bool) :
    ((update_status db tn ns loc msg now en f).2).deliveries
      = db.deliveries.map (updateRow tn ns
          (if ns = DeliveryStatus.delivered.value then some now else none) now) := by
  unfold update_status
  cases hget : get (updateCommit db tn ns now) tn with
  | error e => rfl
  | ok o => cases o with
    | none => rfl
    | some d => cases f with
      | true => rfl
      | false => rfl

theorem update_status_state_next (db : DB) (tn ns loc msg now en : String) (f : Bool) :
    ((update_status db tn ns loc msg now en f).2).next_delivery_id
      = db.next_delivery_id := by
  unfold update_status
  cases hget : get (updateCommit db tn ns now) tn with
  | error e => rfl
  | ok o => cases o with
    | none => rfl
    | some d => cases f with
      | true => rfl
      | false => rfl

theorem updateRow_status_of_match (tn ns : String) (a : Option String) (now : String)
    (r : DeliveryRow) (h : r.tracking_number = tn) :
    (updateRow tn ns a now r).status = ns := by
  unfold updateRow
  rw [if_pos h]

theorem updateRow_actual_of_match_some (tn ns : String) (x : String) (now : String)
    (r : DeliveryRow) (h : r.tracking_number = tn) :
    (updateRow tn ns (some x) now r).actual_delivery = some x := by
  unfold updateRow
  rw [if_pos h]

theorem updateRow_actual_none (tn ns now : String) (r : DeliveryRow) :
    (updateRow tn ns none now r).actual_delivery = r.actual_delivery := by
  unfold updateRow
  split <;> rfl

/-- Rows with equal primary keys coincide in a table whose ids are pairwise
distinct. -/
theorem pairwise_id_unique {l : List DeliveryRow}
    (h : List.Pairwise (fun a b : DeliveryRow => a.id ≠ b.id) l)
    {a b : DeliveryRow} (ha : a ∈ l) (hb : b ∈ l) (hid : a.id = b.id) : a = b := by
  induction l with
  | nil => cases ha
  | cons x xs ih =>
      cases h with
      | cons hx hxs =>
          rcases List.mem_cons.mp ha with rfl | ha2
          · rcases List.mem_cons.mp hb with rfl | hb2
            · rfl
            · exact absurd hid (hx b hb2)
          · rcases List.mem_cons.mp hb with rfl | hb2
            · exact absurd hid.symm (hx a ha2)
            · exact ih hxs ha2 hb2

end DeliveryManager

theorem exec_next_mono (db : DB) (op : Op) :
    db.next_delivery_id ≤ (Op.exec db op).next_delivery_id := by
  cases op with
  | createOp s rc dst w c e n rand now en f =>
      show db.next_delivery_id
        ≤ ((DeliveryManager.create db s rc dst w c e n rand now en f).2).next_delivery_id
      cases hb : db.deliveries.any
          (fun r => decide (r.tracking_number = genTrackingNumber rand)) with
      | true =>
          rw [DeliveryManager.create_collision_eq db s rc dst w c e n rand now en f hb]
      | false =>
          rw [DeliveryManager.create_state_next db s rc dst w c e n rand now en f hb]
          exact Nat.le_succ _
  | updateOp tn ns loc msg now en f =>
      show db.next_delivery_id
        ≤ ((DeliveryManager.update_status db tn ns loc msg now en f).2).next_delivery_id
      rw [DeliveryManager.update_status_state_next]

theorem execTrace_next_mono (ops : List Op) (db : DB) :
    db.next_delivery_id ≤ (execTrace db ops).next_delivery_id := by
  induction ops generalizing db with
  | nil => exact Nat.le_refl _
  | cons op ops ih => exact (exec_next_mono db op).trans (ih (Op.exec db op))

theorem execTrace_snoc (db : DB) (ops : List Op) (op : Op) :
    execTrace db (ops ++ [op]) = Op.exec (execTrace db ops) op := by
  unfold execTrace
  rw [List.foldl_append]
  rfl

theorem execTrace_take_next_le (ops : List Op) (k : Nat) :
    (execTrace DB.init (ops.take k)).next_delivery_id
      ≤ (execTrace DB.init ops).next_delivery_id := by
  conv_rhs => rw [← List.take_append_drop k ops]
  rw [show execTrace DB.init (ops.take k ++ ops.drop k)
      = execTrace (execTrace DB.init (ops.take k)) (ops.drop k) from by
    unfold execTrace
    rw [List.foldl_append]]
  exact execTrace_next_mono _ _

/-- The Shipment stored under row id `i` has, after some prefix of the run
`ops` executed from the fresh store, held the stored status "delivered". -/
def EverDelivered (ops : List Op) (i : Nat) : Prop :=
  ∃ k, k ≤ ops.length ∧ ∃ r ∈ (execTrace DB.init (ops.take k)).deliveries,
    r.id = i ∧ r.status = "delivered"

theorem everDelivered_append (ops : List Op) (op : Op) (i : Nat) :
    EverDelivered (ops ++ [op]) i ↔
      EverDelivered ops i ∨
        ∃ r ∈ (Op.exec (execTrace DB.init ops) op).deliveries,
          r.id = i ∧ r.status = "delivered" := by
  unfold EverDelivered
  constructor
  · rintro ⟨k, hk, r, hr, hid, hst⟩
    rw [List.length_append] at hk
    by_cases hkle : k ≤ ops.length
    · left
      refine ⟨k, hkle, r, ?_, hid, hst⟩
      rwa [List.take_append_of_le_length hkle] at hr
    · right
      have hkeq : k = ops.length + 1 := by
        simp at hk
        omega
      subst hkeq
      rw [show (ops ++ [op]).take (ops.length + 1) = ops ++ [op] from
        List.take_of_length_le (by simp), execTrace_snoc] at hr
      exact ⟨r, hr, hid, hst⟩
  · rintro (⟨k, hk, r, hr, hid, hst⟩ | ⟨r, hr, hid, hst⟩)
    · refine ⟨k, by simp; omega, r, ?_, hid, hst⟩
      rwa [List.take_append_of_le_length hk]
    · refine ⟨ops.length + 1, by simp, r, ?_, hid, hst⟩
      rwa [show (ops ++ [op]).take (ops.length + 1) = ops ++ [op] from
        List.take_of_length_le (by simp), execTrace_snoc]

/-! ## C4 -/

/-- C4: over every run of the manager from a fresh store, a stored
Shipment's `actual_delivery` is non-null exactly when that shipment has at
some point held the Delivered status; `update_status` to `delivered` stamps
the returned Shipment's `actual_delivery` with the current time, and an
update to any non-delivered status leaves every row's `actual_delivery`
unchanged (it is never cleared). -/
theorem actual_delivery_iff_ever_delivered :
    (∀ ops : List Op, ∀ r ∈ (execTrace DB.init ops).deliveries,
       r.actual_delivery.isSome = true ↔ EverDelivered ops r.id) ∧
    (∀ (db : DB) (tn loc msg now en : String) (d : Delivery) (db2 : DB),
       DeliveryManager.update_status db tn "delivered" loc msg now en false
         = (.ok (some d), db2) →
       d.actual_delivery = some now) ∧
    (∀ (db : DB) (tn ns loc msg now en : String) (f : Bool), ns ≠ "delivered" →
       ∀ r ∈ db.deliveries,
         ∃ r2 ∈ ((DeliveryManager.update_status db tn ns loc msg now en f).2).deliveries,
           r2.id = r.id ∧ r2.actual_delivery = r.actual_delivery) := by
  refine ⟨?_, ?_, ?_⟩
  · intro ops
    induction ops using List.reverseRecOn with
    | nil =>
        intro r hr
        exact absurd hr (List.not_mem_nil r)
    | append_singleton ops op ih =>
        intro r hr
        rw [execTrace_snoc] at hr
        rw [everDelivered_append]
        have hReach : Reachable (execTrace DB.init ops) := ⟨ops, rfl⟩
        obtain ⟨hI1, hI2, hI3⟩ := reachable_inv _ hReach
        cases op with
        | createOp s rc dst w c e n rand now en f =>
            cases hb : (execTrace DB.init ops).deliveries.any
                (fun x => decide (x.tracking_number = genTrackingNumber rand)) with
            | true =>
                have hexec : Op.exec (execTrace DB.init ops)
                    (Op.createOp s rc dst w c e n rand now en f) = execTrace DB.init ops := by
                  show (DeliveryManager.create (execTrace DB.init ops)
                    s rc dst w c e n rand now en f).2 = _
                  rw [DeliveryManager.create_collision_eq _ s rc dst w c e n rand now en f hb]
                rw [hexec] at hr ⊢
                constructor
                · exact fun hs => Or.inl ((ih r hr).mp hs)
                · rintro (hev | ⟨r2, hr2, hid2, hst2⟩)
                  · exact (ih r hr).mpr hev
                  · refine (ih r hr).mpr ⟨ops.length, Nat.le_refl _, r2, ?_, hid2, hst2⟩
                    rw [List.take_length]
                    exact hr2
            | false =>
                have hdel2 : (Op.exec (execTrace DB.init ops)
                    (Op.createOp s rc dst w c e n rand now en f)).deliveries
                    = (execTrace DB.init ops).deliveries ++
                      [DeliveryManager.createdRow (execTrace DB.init ops) s rc dst w c e n
                        (genTrackingNumber rand) now] :=
                  DeliveryManager.create_state_deliveries _ s rc dst w c e n rand now en f hb
                rw [hdel2] at hr ⊢
                rcases List.mem_append.mp hr with hrold | hrnew
                · constructor
                  · exact fun hs => Or.inl ((ih r hrold).mp hs)
                  · rintro (hev | ⟨r2, hr2, hid2, hst2⟩)
                    · exact (ih r hrold).mpr hev
                    · rcases List.mem_append.mp hr2 with h2old | h2new
                      · refine (ih r hrold).mpr
                          ⟨ops.length, Nat.le_refl _, r2, ?_, hid2, hst2⟩
                        rw [List.take_length]
                        exact h2old
                      · rcases List.mem_singleton.mp h2new with rfl
                        exact absurd hst2 (by simp [DeliveryManager.createdRow])
                · rcases List.mem_singleton.mp hrnew with rfl
                  constructor
                  · intro hs
                    exact Bool.noConfusion hs
                  · rintro (hev | ⟨r2, hr2, hid2, hst2⟩)
                    · obtain ⟨k, hk, r2, hr2, hid2, hst2⟩ := hev
                      have hlt : r2.id < (execTrace DB.init (ops.take k)).next_delivery_id :=
                        (reachable_inv _ ⟨_, rfl⟩).1 r2 hr2
                      have hle := execTrace_take_next_le ops k
                      rw [hid2, DeliveryManager.createdRow_id] at hlt
                      omega
                    · rcases List.mem_append.mp hr2 with h2old | h2new
                      · have hlt := hI1 r2 h2old
                        rw [hid2, DeliveryManager.createdRow_id] at hlt
                        omega
                      · rcases List.mem_singleton.mp h2new with rfl
                        exact absurd hst2 (by simp [DeliveryManager.createdRow])
        | updateOp tn ns loc msg now en f =>
            have hstate : (Op.exec (execTrace DB.init ops)
                (Op.updateOp tn ns loc msg now en f)).deliveries
                = (execTrace DB.init ops).deliveries.map (DeliveryManager.updateRow tn ns
                    (if ns = DeliveryStatus.delivered.value then some now else none) now) :=
              DeliveryManager.update_status_state_deliveries _ tn ns loc msg now en f
            rw [hstate] at hr ⊢
            obtain ⟨r0, hr0, rfl⟩ := List.mem_map.mp hr
            by_cases hm : r0.tracking_number = tn
            · by_cases hdel : ns = DeliveryStatus.delivered.value
              · simp only [if_pos hdel]
                refine iff_of_true ?_ (Or.inr
                  ⟨DeliveryManager.updateRow tn ns (some now) now r0,
                   List.mem_map_of_mem _ hr0, rfl, ?_⟩)
                · rw [DeliveryManager.updateRow_actual_of_match_some tn ns now now r0 hm]
                  rfl
                · exact (DeliveryManager.updateRow_status_of_match tn ns (some now) now r0
                    hm).trans hdel
              · simp only [if_neg hdel]
                rw [DeliveryManager.updateRow_actual_none tn ns now r0,
                  DeliveryManager.updateRow_id tn ns none now r0]
                constructor
                · exact fun hs => Or.inl ((ih r0 hr0).mp hs)
                · rintro (hev | ⟨r2, hr2, hid2, hst2⟩)
                  · exact (ih r0 hr0).mpr hev
                  · obtain ⟨r1, hr1, rfl⟩ := List.mem_map.mp hr2
                    by_cases hm1 : r1.tracking_number = tn
                    · rw [DeliveryManager.updateRow_status_of_match tn ns none now r1 hm1]
                        at hst2
                      exact absurd hst2 hdel
                    · rw [DeliveryManager.updateRow_of_no_match tn ns none now r1 hm1]
                        at hid2 hst2
                      refine (ih r0 hr0).mpr
                        ⟨ops.length, Nat.le_refl _, r1, ?_, hid2, hst2⟩
                      rw [List.take_length]
                      exact hr1
            · rw [DeliveryManager.updateRow_of_no_match tn ns
                (if ns = DeliveryStatus.delivered.value then some now else none) now r0 hm]
              constructor
              · exact fun hs => Or.inl ((ih r0 hr0).mp hs)
              · rintro (hev | ⟨r2, hr2, hid2, hst2⟩)
                · exact (ih r0 hr0).mpr hev
                · obtain ⟨r1, hr1, rfl⟩ := List.mem_map.mp hr2
                  by_cases hm1 : r1.tracking_number = tn
                  · by_cases hdel : ns = DeliveryStatus.delivered.value
                    · rw [DeliveryManager.updateRow_id] at hid2
                      have hr1r0 : r1 = r0 :=
                        DeliveryManager.pairwise_id_unique hI3 hr1 hr0 hid2
                      exact absurd (hr1r0 ▸ hm1) hm
                    · rw [DeliveryManager.updateRow_status_of_match tn ns
                        (if ns = DeliveryStatus.delivered.value then some now else none)
                        now r1 hm1] at hst2
                      exact absurd hst2 hdel
                  · rw [DeliveryManager.updateRow_of_no_match tn ns
                      (if ns = DeliveryStatus.delivered.value then some now else none)
                      now r1 hm1] at hid2 hst2
                    refine (ih r0 hr0).mpr
                      ⟨ops.length, Nat.le_refl _, r1, ?_, hid2, hst2⟩
                    rw [List.take_length]
                    exact hr1
  · intro db tn loc msg now en d db2 hu
    obtain ⟨hget, -, -⟩ :=
      DeliveryManager.update_status_ok_some_inv db tn "delivered" loc msg now en false d db2 hu
    obtain ⟨ru, hfu, hdu⟩ := DeliveryManager.get_ok_some_find? _ tn d hget
    rw [DeliveryManager.find?_updateCommit_map db tn "delivered" now] at hfu
    cases hfind0 : db.deliveries.find? (fun x => decide (x.tracking_number = tn)) with
    | none =>
        rw [hfind0] at hfu
        cases hfu
    | some r0 =>
        rw [hfind0] at hfu
        have hru : ru = DeliveryManager.updateRow tn "delivered"
            (if "delivered" = DeliveryStatus.delivered.value then some now else none)
            now r0 := (Option.some.inj hfu).symm
        have hm : r0.tracking_number = tn := by simpa using List.find?_some hfind0
        rw [DeliveryManager.row_to_delivery_ok_actual ru d hdu, hru,
          if_pos (show "delivered" = DeliveryStatus.delivered.value from rfl)]
        exact DeliveryManager.updateRow_actual_of_match_some tn "delivered" now now r0 hm
  · intro db tn ns loc msg now en f hns r hr
    have hdel : ¬ns = DeliveryStatus.delivered.value := hns
    refine ⟨DeliveryManager.updateRow tn ns none now r, ?_,
      DeliveryManager.updateRow_id tn ns none now r,
      DeliveryManager.updateRow_actual_none tn ns now r⟩
    rw [DeliveryManager.update_status_state_deliveries db tn ns loc msg now en f, if_neg hdel]
    exact List.mem_map_of_mem _ hr

theorem actual_delivery_iff_ever_delivered_witness :
    ((⟨1, "BRAAAAAAAAAA", "a", "b", "c", 0, "pending", none, none, "", "", "t0", "t0"⟩ :
        DeliveryRow).actual_delivery.isSome = true ↔
      EverDelivered [Op.createOp "a" "b" "c" 0 "" none "" sampleRand "t0" "t1" false]
        (⟨1, "BRAAAAAAAAAA", "a", "b", "c", 0, "pending", none, none, "", "", "t0", "t0"⟩ :
          DeliveryRow).id) ∧
    ((⟨1, "BRAAAAAAAAAA", "a", "b", "c", 0, .delivered, none, some "u0", "", "", "t0", "u0"⟩ :
        Delivery).actual_delivery = some "u0") ∧
    (∃ r2 ∈ ((DeliveryManager.update_status sampleDB "BRAAAAAAAAAA" "in_transit" "" ""
        "u0" "u1" false).2).deliveries,
      r2.id = (⟨1, "BRAAAAAAAAAA", "a", "b", "c", 0, "pending", none, none, "", "", "t0",
        "t0"⟩ : DeliveryRow).id ∧
      r2.actual_delivery = (⟨1, "BRAAAAAAAAAA", "a", "b", "c", 0, "pending", none, none,
        "", "", "t0", "t0"⟩ : DeliveryRow).actual_delivery) :=
  ⟨actual_delivery_iff_ever_delivered.1
      [Op.createOp "a" "b" "c" 0 "" none "" sampleRand "t0" "t1" false]
      ⟨1, "BRAAAAAAAAAA", "a", "b", "c", 0, "pending", none, none, "", "", "t0", "t0"⟩
      (by decide),
   actual_delivery_iff_ever_delivered.2.1 sampleDB "BRAAAAAAAAAA" "" "" "u0" "u1"
      ⟨1, "BRAAAAAAAAAA", "a", "b", "c", 0, .delivered, none, some "u0", "", "", "t0", "u0"⟩
      ⟨[⟨1, "BRAAAAAAAAAA", "a", "b", "c", 0, "delivered", none, some "u0", "", "", "t0",
          "u0"⟩],
       [⟨1, 1, "pending", "", "Shipment created", "t1"⟩, ⟨2, 1, "delivered", "", "", "u1"⟩],
       2, 3⟩
      (by decide),
   actual_delivery_iff_ever_delivered.2.2 sampleDB "BRAAAAAAAAAA" "in_transit" "" "" "u0"
      "u1" false (by decide)
      ⟨1, "BRAAAAAAAAAA", "a", "b", "c", 0, "pending", none, none, "", "", "t0", "t0"⟩
      (by decide)⟩
